import Mathlib

/-!
Shallow embedding of the HumanS ESP32 BLE-to-WiFi bridge
(`src/unnamed/part_001`, "HumanS ESP32 Smart Bridge v5.1" translation unit),
together with theorems settling the specification claims about the
frame decoder, the signal-quality estimator, the connection guard,
the arbitration directive handling and link teardown.

C `int` arithmetic is modelled by `Int` with `Int.tdiv` for `/`
(C integer division truncates toward zero); byte values are `Nat`.
-/

namespace HumansBridge

/-- Calibration constant `TX_POWER` from the source (dBm at 1 m). -/
def TX_POWER : Int := -95

/-- Threshold `RSSI_EXCELLENT` from the source. -/
def RSSI_EXCELLENT : Int := -60

/-- Threshold `RSSI_GOOD` from the source. -/
def RSSI_GOOD : Int := -70

/-- Threshold `RSSI_ACCEPTABLE` from the source. -/
def RSSI_ACCEPTABLE : Int := -80

/-- Threshold `RSSI_WEAK` from the source. -/
def RSSI_WEAK : Int := -88

/-- Threshold `RSSI_CRITICAL` from the source. -/
def RSSI_CRITICAL : Int := -94

/-- Minimum RSSI required to attempt a connection (`RSSI_MIN_CONNECT`). -/
def RSSI_MIN_CONNECT : Int := -92

/-- RSSI at or below which the link is force-disconnected (`RSSI_FORCE_DISCONNECT`). -/
def RSSI_FORCE_DISCONNECT : Int := -96

/-- Capacity of the circular RSSI history (`RSSI_HISTORY_SIZE`). -/
def RSSI_HISTORY_SIZE : Nat := 10

/-- A decoded vitals sample: the pair (heart rate, SpO2) computed by the
frame decoder in `notifyCallback`. Values are byte-derived, hence `Nat`. -/
structure VitalsSample where
  hr : Nat
  spo2 : Nat
deriving Repr, DecidableEq

/-- Validity test for a heart-rate candidate byte (`h >= 30 && h <= 220`). -/
def hrInRange (h : Nat) : Bool :=
  decide (30 ≤ h ∧ h ≤ 220)

/-- Validity test for an SpO2 candidate byte (`s >= 60 && s <= 100`). -/
def spo2InRange (s : Nat) : Bool :=
  decide (60 ≤ s ∧ s ≤ 100)

/-- The four heart-rate candidate bytes of a frame,
`{pData[3], pData[8], pData[13], pData[18]}`. -/
def hrSamples (frame : List Nat) : List Nat :=
  [frame.getD 3 0, frame.getD 8 0, frame.getD 13 0, frame.getD 18 0]

/-- The four SpO2 candidate bytes of a frame,
`{pData[4], pData[9], pData[14], pData[19]}`. -/
def spo2Samples (frame : List Nat) : List Nat :=
  [frame.getD 4 0, frame.getD 9 0, frame.getD 14 0, frame.getD 19 0]

/-- The accumulation loop of `notifyCallback`: running over the candidate
list, add each candidate passing `valid` to the sum and bump the count
(`if (valid) { sum += v; count++; }`). Returns `(sum, count)`. -/
def accumValid (valid : Nat → Bool) (samples : List Nat) : Nat × Nat :=
  samples.foldl (fun acc v => if valid v then (acc.1 + v, acc.2 + 1) else acc) (0, 0)

/-- The pure frame decoder embedded from the body of `notifyCallback`:
reject frames whose length is not 20; accumulate the in-range heart-rate
and SpO2 candidates; reject if either count is zero; otherwise return the
integer means `hr_sum / hr_count` and `spo2_sum / spo2_count`. -/
def decodeFrame (frame : List Nat) : Option VitalsSample :=
  if frame.length ≠ 20 then none
  else
    let hrAcc := accumValid hrInRange (hrSamples frame)
    let spAcc := accumValid spo2InRange (spo2Samples frame)
    if hrAcc.2 = 0 ∨ spAcc.2 = 0 then none
    else some ⟨hrAcc.1 / hrAcc.2, spAcc.1 / spAcc.2⟩

/-- The example frame of the spec scenario: 20 bytes with
`b3=72, b4=98, b8=75, b9=97, b13=74, b14=98, b18=0, b19=200`
(all other bytes zero). -/
def exampleFrame : List Nat :=
  [0, 0, 0, 72, 98, 0, 0, 0, 75, 97, 0, 0, 0, 74, 98, 0, 0, 0, 0, 200]

/-- The mutable globals of the v5.1 bridge translation unit, gathered into
one state record.  Pointers are modelled by their nullness (`pClient`,
`pRemoteChar`, `pWriteChar` are `true` when the pointer is non-null), the
candidate `foundDevice` by `Option Int` carrying its advertised RSSI, and
`clientsAllocated` counts the live `BLEClient` objects
(`BLEDevice::createClient` allocates one, `delete pClient` frees one), so
that resource accounting of teardown can be stated. -/
structure BridgeState where
  pClient : Bool
  bleLinkConnected : Bool
  pRemoteChar : Bool
  pWriteChar : Bool
  deviceConnected : Bool
  isConnecting : Bool
  shouldConnect : Bool
  isActiveBridge : Bool
  currentRSSI : Int
  avgRSSI : Int
  pendingSpo2 : Int
  pendingHR : Int
  packetsSent : Nat
  blePacketsReceived : Nat
  connectionAttempts : Nat
  reconnections : Nat
  consecutiveFailures : Nat
  lastDataTime : Nat
  rssiHistory : List Int
  rssiHistoryIndex : Nat
  rssiHistoryCount : Nat
  foundDevice : Option Int
  clientsAllocated : Nat
deriving Repr, DecidableEq

/-- The state right after boot: the global initializers of the source
(`pendingSpo2 = -1`, `pendingHR = -1`, `shouldConnect = true`,
`rssiHistory = {0}`, counters zero, all pointers null). -/
def bootState : BridgeState where
  pClient := false
  bleLinkConnected := false
  pRemoteChar := false
  pWriteChar := false
  deviceConnected := false
  isConnecting := false
  shouldConnect := true
  isActiveBridge := false
  currentRSSI := 0
  avgRSSI := 0
  pendingSpo2 := -1
  pendingHR := -1
  packetsSent := 0
  blePacketsReceived := 0
  connectionAttempts := 0
  reconnections := 0
  consecutiveFailures := 0
  lastDataTime := 0
  rssiHistory := List.replicate RSSI_HISTORY_SIZE 0
  rssiHistoryIndex := 0
  rssiHistoryCount := 0
  foundDevice := none
  clientsAllocated := 0

/-- The state mutation of `notifyCallback` at time `now`: decode the frame
and, only on success, store the decoded values in the pending slots, bump
`blePacketsReceived` and refresh `lastDataTime`; on rejection the state is
untouched (both early `return` paths). -/
def notifyCallback (now : Nat) (frame : List Nat) (s : BridgeState) : BridgeState :=
  match decodeFrame frame with
  | none => s
  | some v =>
      { s with pendingHR := (v.hr : Int), pendingSpo2 := (v.spo2 : Int),
               blePacketsReceived := s.blePacketsReceived + 1,
               lastDataTime := now }

/-- `getSignalQuality`: the strictly ordered threshold ladder on RSSI,
returning the source's quality strings. -/
def getSignalQuality (rssi : Int) : String :=
  if rssi ≥ RSSI_EXCELLENT then "EXCELENTE"
  else if rssi ≥ RSSI_GOOD then "BUENA"
  else if rssi ≥ RSSI_ACCEPTABLE then "ACEPTABLE"
  else if rssi ≥ RSSI_WEAK then "DEBIL"
  else if rssi ≥ RSSI_CRITICAL then "CRITICA"
  else "PERDIDA"

/-- Numeric rank of a quality bucket under the ordering
EXCELLENT > GOOD > ACCEPTABLE > WEAK > CRITICAL > LOST (higher is better). -/
def bucketRank (bucket : String) : Nat :=
  if bucket = "EXCELENTE" then 5
  else if bucket = "BUENA" then 4
  else if bucket = "ACEPTABLE" then 3
  else if bucket = "DEBIL" then 2
  else if bucket = "CRITICA" then 1
  else 0

/-- `updateRSSIHistory`: write the new reading at the current index of the
circular buffer, advance the index modulo the capacity, saturate the count
at the capacity, and recompute `avgRSSI` as the C integer mean
(`sum / rssiHistoryCount`, truncated toward zero) of the first
`rssiHistoryCount` buffer entries. -/
def updateRSSIHistory (rssi : Int) (s : BridgeState) : BridgeState :=
  let hist := s.rssiHistory.set s.rssiHistoryIndex rssi
  let idx := (s.rssiHistoryIndex + 1) % RSSI_HISTORY_SIZE
  let cnt := if s.rssiHistoryCount < RSSI_HISTORY_SIZE then s.rssiHistoryCount + 1
             else s.rssiHistoryCount
  { s with rssiHistory := hist, rssiHistoryIndex := idx, rssiHistoryCount := cnt,
           avgRSSI := ((hist.take cnt).sum).tdiv (cnt : Int) }

/-- The window of valid entries of the circular buffer: its first
`rssiHistoryCount` slots, exactly the entries the source's averaging loop
reads (`for i in 0 .. rssiHistoryCount-1`). -/
def rssiWindow (s : BridgeState) : List Int :=
  s.rssiHistory.take s.rssiHistoryCount

/-- Circular-buffer access `rssiHistory[(rssiHistoryIndex - back + SIZE) % SIZE]`
used by `getSignalTrend` (`back` is 1 for the most recent entry). -/
def rssiAt (s : BridgeState) (back : Nat) : Int :=
  s.rssiHistory.getD ((s.rssiHistoryIndex + RSSI_HISTORY_SIZE - back) % RSSI_HISTORY_SIZE) 0

/-- `recent` of `getSignalTrend`: C integer mean of the two most recent entries. -/
def recentMean (s : BridgeState) : Int :=
  (rssiAt s 1 + rssiAt s 2).tdiv 2

/-- `older` of `getSignalTrend`: C integer mean of the two entries before them. -/
def olderMean (s : BridgeState) : Int :=
  (rssiAt s 3 + rssiAt s 4).tdiv 2

/-- `getSignalTrend`: with fewer than 4 history entries return "stable";
otherwise compare the mean of the two most recent entries against the mean
of the two before them, with threshold `+3` for "improving" and `-5` for
"deteriorating". -/
def getSignalTrend (s : BridgeState) : String :=
  if s.rssiHistoryCount < 4 then "stable"
  else if recentMean s > olderMean s + 3 then "improving"
  else if recentMean s < olderMean s - 5 then "deteriorating"
  else "stable"

/-- Feed a list of raw RSSI readings through `updateRSSIHistory` in order. -/
def pushAll (readings : List Int) (s : BridgeState) : BridgeState :=
  readings.foldl (fun st r => updateRSSIHistory r st) s

/-- `cleanupConnection`: if the client object exists, disconnect it when
still connected and delete it (freeing one allocated client); then drop
both characteristic handles and clear the `deviceConnected` and
`isConnecting` flags. -/
def cleanupConnection (s : BridgeState) : BridgeState :=
  let s1 := if s.pClient then
              { s with bleLinkConnected := false, pClient := false,
                       clientsAllocated := s.clientsAllocated - 1 }
            else s
  { s1 with pRemoteChar := false, pWriteChar := false,
            deviceConnected := false, isConnecting := false }

/-- `forceDisconnect`: log the reason and run `cleanupConnection`.  The
reason string (the trigger source: timeout, RSSI breach, directive) does
not influence the resulting state. -/
def forceDisconnect (_reason : String) (s : BridgeState) : BridgeState :=
  cleanupConnection s

/-- The guard prefix of `connectToDevice`: `true` exactly when the attempt
proceeds past all four early returns (not connected or connecting, a
candidate exists, candidate RSSI at least `RSSI_MIN_CONNECT`, and the
proxy's latest directive allows connecting), i.e. when `isConnecting` is
set and a radio connection attempt is initiated. -/
def connectToDeviceInitiates (s : BridgeState) : Bool :=
  if s.deviceConnected || s.isConnecting then false
  else
    match s.foundDevice with
    | none => false
    | some rssi =>
        if rssi < RSSI_MIN_CONNECT then false
        else if !s.shouldConnect then false
        else true

/-- An arbitration directive as parsed from a successful proxy response
(`is_active_bridge` defaulting false, `should_connect` defaulting true,
`release_connection` defaulting false). -/
structure Directive where
  isActiveBridge : Bool
  shouldConnect : Bool
  releaseConnection : Bool
deriving Repr, DecidableEq

/-- The directive-application part of `sendDataToProxy` on an HTTP 200
response with valid JSON: replace `isActiveBridge` and `shouldConnect`,
run `forceDisconnect` when the response carries `release_connection = true`
while the device is connected, then count the packet and clear the pending
sample slots. -/
def sendDataToProxyOk (d : Directive) (s : BridgeState) : BridgeState :=
  let s1 := { s with isActiveBridge := d.isActiveBridge, shouldConnect := d.shouldConnect }
  let s2 := if d.releaseConnection && s1.deviceConnected then
              forceDisconnect "Handoff solicitado por proxy" s1
            else s1
  { s2 with packetsSent := s2.packetsSent + 1, pendingSpo2 := -1, pendingHR := -1 }

/-- The accumulation loop computes the sum and the count of the candidates
that pass the validity test. -/
theorem accumValid_eq (valid : Nat → Bool) (l : List Nat) :
    accumValid valid l = ((l.filter valid).sum, (l.filter valid).length) := by
  have key : ∀ (l : List Nat) (a : Nat × Nat),
      l.foldl (fun acc v => if valid v then (acc.1 + v, acc.2 + 1) else acc) a
        = (a.1 + (l.filter valid).sum, a.2 + (l.filter valid).length) := by
    intro l
    induction l with
    | nil => intro a; simp
    | cons x xs ih =>
        intro a
        rw [List.foldl_cons, ih]
        by_cases hx : valid x
        · simp [List.filter_cons, hx, Prod.ext_iff, Nat.add_assoc, Nat.add_comm, Nat.add_left_comm]
        · simp [List.filter_cons, hx]
  simpa [accumValid] using key l (0, 0)

/-- C1: for every frame the decoder accepts, the decoded heart rate is the
integer-truncated mean of the in-range bytes at offsets 3, 8, 13, 18 and
the decoded SpO2 is the integer-truncated mean of the in-range bytes at
offsets 4, 9, 14, 19; on the spec's example frame it yields
`hr = 73` and `spo2 = 97`. -/
theorem decode_yields_truncated_means :
    (∀ frame v, decodeFrame frame = some v →
        v.hr = ((hrSamples frame).filter hrInRange).sum
                 / ((hrSamples frame).filter hrInRange).length ∧
        v.spo2 = ((spo2Samples frame).filter spo2InRange).sum
                 / ((spo2Samples frame).filter spo2InRange).length) ∧
    decodeFrame exampleFrame = some ⟨73, 97⟩ := by
  constructor
  · intro frame v h
    simp only [decodeFrame, accumValid_eq] at h
    split at h
    · exact absurd h (by simp)
    · split at h
      · exact absurd h (by simp)
      · injection h with h
        subst h
        exact ⟨rfl, rfl⟩
  · decide

/-- Witness for C1 at the example frame. -/
theorem decode_yields_truncated_means_witness :
    decodeFrame exampleFrame = some ⟨73, 97⟩ ∧
    ((⟨73, 97⟩ : VitalsSample).hr
        = ((hrSamples exampleFrame).filter hrInRange).sum
            / ((hrSamples exampleFrame).filter hrInRange).length ∧
     (⟨73, 97⟩ : VitalsSample).spo2
        = ((spo2Samples exampleFrame).filter spo2InRange).sum
            / ((spo2Samples exampleFrame).filter spo2InRange).length) :=
  ⟨decode_yields_truncated_means.2,
   decode_yields_truncated_means.1 exampleFrame ⟨73, 97⟩ decode_yields_truncated_means.2⟩

/-- C2: the decoder rejects exactly when the frame length differs from 20
or when either channel accumulates zero valid candidates, and on rejection
the callback leaves the bridge state (in particular the pending sample)
unchanged. -/
theorem decode_rejects_iff (frame : List Nat) (now : Nat) (s : BridgeState) :
    (decodeFrame frame = none ↔
      frame.length ≠ 20 ∨ ((hrSamples frame).filter hrInRange).length = 0
        ∨ ((spo2Samples frame).filter spo2InRange).length = 0) ∧
    (decodeFrame frame = none → notifyCallback now frame s = s) := by
  constructor
  · unfold decodeFrame
    simp only [accumValid_eq]
    by_cases h1 : frame.length ≠ 20
    · simp [h1]
    · by_cases h2 : ((hrSamples frame).filter hrInRange).length = 0
      · simp [h1, h2]
      · by_cases h3 : ((spo2Samples frame).filter spo2InRange).length = 0
        · simp [h1, h2, h3]
        · simp [h1, h2, h3]
  · intro h
    simp [notifyCallback, h]

/-- Witness for C2 at a 3-byte frame. -/
theorem decode_rejects_iff_witness :
    (decodeFrame [1, 2, 3] = none ↔
      ([1, 2, 3] : List Nat).length ≠ 20
        ∨ ((hrSamples [1, 2, 3]).filter hrInRange).length = 0
        ∨ ((spo2Samples [1, 2, 3]).filter spo2InRange).length = 0) ∧
    (decodeFrame [1, 2, 3] = none → notifyCallback 0 [1, 2, 3] bootState = bootState) :=
  decode_rejects_iff [1, 2, 3] 0 bootState

/-- Lower and upper bounds on a truncated natural mean of a list whose
entries all lie in a fixed interval. -/
theorem nat_mean_bounds (l : List Nat) (lo hi : Nat) (hne : l ≠ [])
    (hb : ∀ x ∈ l, lo ≤ x ∧ x ≤ hi) :
    lo ≤ l.sum / l.length ∧ l.sum / l.length ≤ hi := by
  have hlen : 0 < l.length := List.length_pos.mpr hne
  have hlow : lo * l.length ≤ l.sum := by
    have := List.card_nsmul_le_sum l lo (fun x hx => (hb x hx).1)
    simpa [smul_eq_mul, Nat.mul_comm] using this
  have hhigh : l.sum ≤ hi * l.length := by
    have := List.sum_le_card_nsmul l hi (fun x hx => (hb x hx).2)
    simpa [smul_eq_mul, Nat.mul_comm] using this
  constructor
  · exact (Nat.le_div_iff_mul_le hlen).mpr hlow
  · refine (Nat.div_le_iff_le_mul_add_pred hlen).mpr ?_
    calc l.sum ≤ hi * l.length := hhigh
      _ = l.length * hi := Nat.mul_comm _ _
      _ ≤ l.length * hi + (l.length - 1) := Nat.le_add_right _ _

/-- C10: whenever the decoder produces a sample, the heart rate lies in
[30, 220] and the SpO2 in [60, 100]; after the callback stores it, both
pending slots are strictly positive, hence distinct from the empty-slot
sentinel -1. -/
theorem decode_outputs_in_range (frame : List Nat) (v : VitalsSample)
    (now : Nat) (s : BridgeState) (h : decodeFrame frame = some v) :
    (30 ≤ v.hr ∧ v.hr ≤ 220) ∧ (60 ≤ v.spo2 ∧ v.spo2 ≤ 100) ∧
    (notifyCallback now frame s).pendingHR = (v.hr : Int) ∧
    (notifyCallback now frame s).pendingSpo2 = (v.spo2 : Int) ∧
    0 < (notifyCallback now frame s).pendingHR ∧
    0 < (notifyCallback now frame s).pendingSpo2 ∧
    (notifyCallback now frame s).pendingHR ≠ -1 ∧
    (notifyCallback now frame s).pendingSpo2 ≠ -1 := by
  have hmean : (30 ≤ v.hr ∧ v.hr ≤ 220) ∧ (60 ≤ v.spo2 ∧ v.spo2 ≤ 100) := by
    simp only [decodeFrame, accumValid_eq] at h
    split at h
    · exact absurd h (by simp)
    · split at h
      · exact absurd h (by simp)
      · rename_i hcnt
        simp only [not_or] at hcnt
        injection h with h
        subst h
        constructor
        · refine nat_mean_bounds _ 30 220 ?_ ?_
          · intro hnil
            exact hcnt.1 (by simp [hnil])
          · intro x hx
            have := (List.mem_filter.mp hx).2
            simpa [hrInRange] using this
        · refine nat_mean_bounds _ 60 100 ?_ ?_
          · intro hnil
            exact hcnt.2 (by simp [hnil])
          · intro x hx
            have := (List.mem_filter.mp hx).2
            simpa [spo2InRange] using this
  have hcb : (notifyCallback now frame s).pendingHR = (v.hr : Int) ∧
      (notifyCallback now frame s).pendingSpo2 = (v.spo2 : Int) := by
    simp [notifyCallback, h]
  refine ⟨hmean.1, hmean.2, hcb.1, hcb.2, ?_, ?_, ?_, ?_⟩
  · rw [hcb.1]
    have := hmean.1.1
    omega
  · rw [hcb.2]
    have := hmean.2.1
    omega
  · rw [hcb.1]
    have := hmean.1.1
    omega
  · rw [hcb.2]
    have := hmean.2.1
    omega

/-- Witness for C10 at the example frame. -/
theorem decode_outputs_in_range_witness :
    (30 ≤ (⟨73, 97⟩ : VitalsSample).hr ∧ (⟨73, 97⟩ : VitalsSample).hr ≤ 220) ∧
    (60 ≤ (⟨73, 97⟩ : VitalsSample).spo2 ∧ (⟨73, 97⟩ : VitalsSample).spo2 ≤ 100) ∧
    (notifyCallback 5 exampleFrame bootState).pendingHR = ((⟨73, 97⟩ : VitalsSample).hr : Int) ∧
    (notifyCallback 5 exampleFrame bootState).pendingSpo2 = ((⟨73, 97⟩ : VitalsSample).spo2 : Int) ∧
    0 < (notifyCallback 5 exampleFrame bootState).pendingHR ∧
    0 < (notifyCallback 5 exampleFrame bootState).pendingSpo2 ∧
    (notifyCallback 5 exampleFrame bootState).pendingHR ≠ -1 ∧
    (notifyCallback 5 exampleFrame bootState).pendingSpo2 ≠ -1 :=
  decode_outputs_in_range exampleFrame ⟨73, 97⟩ 5 bootState (by decide)

/-- C3: with a candidate whose RSSI is below `RSSI_MIN_CONNECT`, or with
the latest directive disallowing connection, `connectToDevice` refuses:
no connection attempt is initiated. -/
theorem connect_refused_on_weak_or_disallowed (s : BridgeState) (rssi : Int)
    (hfound : s.foundDevice = some rssi)
    (h : rssi < RSSI_MIN_CONNECT ∨ s.shouldConnect = false) :
    connectToDeviceInitiates s = false := by
  unfold connectToDeviceInitiates
  rw [hfound]
  rcases h with h | h
  · split_ifs <;> simp_all
  · split_ifs <;> simp_all

/-- Witness for C3: a candidate at -95 dBm (below the -92 dBm minimum) is
refused. -/
theorem connect_refused_on_weak_or_disallowed_witness :
    connectToDeviceInitiates { bootState with foundDevice := some (-95) } = false :=
  connect_refused_on_weak_or_disallowed { bootState with foundDevice := some (-95) }
    (-95) (by decide) (Or.inl (by decide))

/-- C4: a successful arbitration exchange whose directive carries
`release_connection = true` while the node is connected tears the link
down within the same call (hence within the same polling cycle): the
connected flag is cleared, the client object is freed and both
characteristic handles are released. -/
theorem release_directive_tears_down (d : Directive) (s : BridgeState)
    (hrel : d.releaseConnection = true) (hconn : s.deviceConnected = true) :
    (sendDataToProxyOk d s).deviceConnected = false ∧
    (sendDataToProxyOk d s).pClient = false ∧
    (sendDataToProxyOk d s).pRemoteChar = false ∧
    (sendDataToProxyOk d s).pWriteChar = false ∧
    (sendDataToProxyOk d s).isConnecting = false := by
  unfold sendDataToProxyOk forceDisconnect cleanupConnection
  simp only [hrel, hconn, Bool.true_and, if_true]
  split_ifs <;> simp_all

/-- Witness for C4 at a concrete connected state and release directive. -/
theorem release_directive_tears_down_witness :
    (sendDataToProxyOk ⟨false, true, true⟩
        { bootState with deviceConnected := true, pClient := true }).deviceConnected = false ∧
    (sendDataToProxyOk ⟨false, true, true⟩
        { bootState with deviceConnected := true, pClient := true }).pClient = false ∧
    (sendDataToProxyOk ⟨false, true, true⟩
        { bootState with deviceConnected := true, pClient := true }).pRemoteChar = false ∧
    (sendDataToProxyOk ⟨false, true, true⟩
        { bootState with deviceConnected := true, pClient := true }).pWriteChar = false ∧
    (sendDataToProxyOk ⟨false, true, true⟩
        { bootState with deviceConnected := true, pClient := true }).isConnecting = false :=
  release_directive_tears_down ⟨false, true, true⟩
    { bootState with deviceConnected := true, pClient := true } rfl rfl

/-- C9: link teardown is idempotent: running `cleanupConnection` twice
from any state yields exactly the state of running it once (same flags,
same freed handles, same allocated-client count), and the same holds for
`forceDisconnect` regardless of the trigger reasons. -/
theorem teardown_idempotent (s : BridgeState) (r1 r2 : String) :
    cleanupConnection (cleanupConnection s) = cleanupConnection s ∧
    forceDisconnect r1 (forceDisconnect r2 s) = forceDisconnect r2 s := by
  have h : cleanupConnection (cleanupConnection s) = cleanupConnection s := by
    cases s
    unfold cleanupConnection
    split_ifs <;> simp_all
  exact ⟨h, h⟩

/-- The rank of the bucket produced by `getSignalQuality`, as a numeric
threshold ladder. -/
theorem bucketRank_getSignalQuality (r : Int) :
    bucketRank (getSignalQuality r) =
      if r ≥ RSSI_EXCELLENT then 5
      else if r ≥ RSSI_GOOD then 4
      else if r ≥ RSSI_ACCEPTABLE then 3
      else if r ≥ RSSI_WEAK then 2
      else if r ≥ RSSI_CRITICAL then 1
      else 0 := by
  unfold getSignalQuality
  split_ifs <;> simp [bucketRank]

/-- C6: the quality bucket is monotone in RSSI: a strictly higher reading
never yields a strictly worse bucket under the ordering
EXCELLENT > GOOD > ACCEPTABLE > WEAK > CRITICAL > LOST. -/
theorem quality_bucket_monotone (r1 r2 : Int) (h : r2 < r1) :
    bucketRank (getSignalQuality r2) ≤ bucketRank (getSignalQuality r1) := by
  rw [bucketRank_getSignalQuality, bucketRank_getSignalQuality]
  simp only [RSSI_EXCELLENT, RSSI_GOOD, RSSI_ACCEPTABLE, RSSI_WEAK, RSSI_CRITICAL]
  split_ifs <;> omega

/-- Witness for C6 at -75 dBm versus -65 dBm. -/
theorem quality_bucket_monotone_witness :
    bucketRank (getSignalQuality (-75)) ≤ bucketRank (getSignalQuality (-65)) :=
  quality_bucket_monotone (-65) (-75) (by decide)

/-- C5 counterexample: the claimed asymmetry direction fails.  Starting
from boot, the readings [-64, -64, -60, -60] (an upward step of magnitude
4 between the older and the recent pair) yield "improving", while the
mirror readings [-60, -60, -64, -64] (a downward step of the same
magnitude 4) yield "stable", not "deteriorating": a downward change does
NOT trigger DETERIORATING at least as easily as the same upward change
triggers IMPROVING — the code flags improvement more readily (threshold
+3) than deterioration (threshold -5). -/
theorem trend_asymmetry_reversed :
    getSignalTrend (pushAll [-64, -64, -60, -60] bootState) = "improving" ∧
    getSignalTrend (pushAll [-60, -60, -64, -64] bootState) = "stable" := by
  constructor <;> decide

/-- C5 as amended: with at least 4 history entries the trend compares the
truncated mean of the two most recent entries against that of the two
before them, with asymmetric thresholds flagging improvement more readily
than deterioration ("improving" iff recent > older + 3, "deteriorating"
iff recent < older - 5); with fewer than 4 entries the fallback "stable"
is returned without comparing; [-60, -61, -62, -63] yields "stable" and
[-60, -60, -75, -76] yields "deteriorating". -/
theorem getSignalTrend_spec :
    (∀ s : BridgeState, s.rssiHistoryCount < 4 → getSignalTrend s = "stable") ∧
    (∀ s : BridgeState, 4 ≤ s.rssiHistoryCount →
      ((getSignalTrend s = "improving" ↔ olderMean s + 3 < recentMean s) ∧
       (getSignalTrend s = "deteriorating" ↔ recentMean s < olderMean s - 5))) ∧
    getSignalTrend (pushAll [-60, -61, -62, -63] bootState) = "stable" ∧
    getSignalTrend (pushAll [-60, -60, -75, -76] bootState) = "deteriorating" := by
  refine ⟨?_, ?_, by decide, by decide⟩
  · intro s h
    simp [getSignalTrend, h]
  · intro s h
    have h4 : ¬ s.rssiHistoryCount < 4 := by omega
    unfold getSignalTrend
    rw [if_neg h4]
    constructor
    · split_ifs with h1 h2 <;> simp_all
    · split_ifs with h1 h2 <;> simp_all
      all_goals omega

/-- Witness for C5's amended theorem: the fallback at boot (0 entries) and
the deterioration criterion at the second scenario state. -/
theorem getSignalTrend_spec_witness :
    getSignalTrend bootState = "stable" ∧
    (getSignalTrend (pushAll [-60, -60, -75, -76] bootState) = "deteriorating" ↔
      recentMean (pushAll [-60, -60, -75, -76] bootState)
        < olderMean (pushAll [-60, -60, -75, -76] bootState) - 5) :=
  ⟨getSignalTrend_spec.1 bootState (by decide),
   (getSignalTrend_spec.2.1 (pushAll [-60, -60, -75, -76] bootState) (by decide)).2⟩

/-- Truncating integer division (C's `/`) respects an integer lower bound
on the numerator: if `mn * n ≤ a` with `n` positive then `mn ≤ a / n`. -/
theorem le_tdiv_of_mul_le {a mn n : Int} (hn : 0 < n) (h : mn * n ≤ a) :
    mn ≤ a.tdiv n := by
  rcases le_or_lt 0 a with ha | ha
  · rw [Int.tdiv_eq_ediv ha hn.le]
    calc mn = mn * n / n := (Int.mul_ediv_cancel mn hn.ne').symm
      _ ≤ a / n := Int.ediv_le_ediv hn h
  · have hrw : a.tdiv n = -((-a).tdiv n) := by
      rw [← Int.neg_tdiv, neg_neg]
    rw [hrw, Int.tdiv_eq_ediv (by omega) hn.le]
    have h2 : -a ≤ -mn * n := by linarith
    have h3 : (-a) / n ≤ -mn :=
      calc (-a) / n ≤ (-mn * n) / n := Int.ediv_le_ediv hn h2
        _ = -mn := Int.mul_ediv_cancel _ hn.ne'
    linarith

/-- Truncating integer division (C's `/`) respects an integer upper bound
on the numerator: if `a ≤ mx * n` with `n` positive then `a / n ≤ mx`. -/
theorem tdiv_le_of_le_mul {a mx n : Int} (hn : 0 < n) (h : a ≤ mx * n) :
    a.tdiv n ≤ mx := by
  rcases le_or_lt 0 a with ha | ha
  · rw [Int.tdiv_eq_ediv ha hn.le]
    calc a / n ≤ (mx * n) / n := Int.ediv_le_ediv hn h
      _ = mx := Int.mul_ediv_cancel _ hn.ne'
  · have hrw : a.tdiv n = -((-a).tdiv n) := by
      rw [← Int.neg_tdiv, neg_neg]
    rw [hrw, Int.tdiv_eq_ediv (by omega) hn.le]
    have h2 : -mx * n ≤ -a := by linarith
    have h3 : -mx ≤ (-a) / n :=
      calc (-mx : Int) = (-mx * n) / n := (Int.mul_ediv_cancel _ hn.ne').symm
        _ ≤ (-a) / n := Int.ediv_le_ediv hn h2
    linarith

/-- The sum of an integer list whose entries lie in `[mn, mx]` lies in
`[mn * length, mx * length]`. -/
theorem int_list_sum_bounds (l : List Int) (mn mx : Int)
    (hmn : ∀ x ∈ l, mn ≤ x) (hmx : ∀ x ∈ l, x ≤ mx) :
    mn * (l.length : Int) ≤ l.sum ∧ l.sum ≤ mx * (l.length : Int) := by
  constructor
  · have := List.card_nsmul_le_sum l mn hmn
    simpa [nsmul_eq_mul, mul_comm] using this
  · have := List.sum_le_card_nsmul l mx hmx
    simpa [nsmul_eq_mul, mul_comm] using this

/-- C7: after every update of the RSSI history, the smoothed RSSI (the C
integer mean over the entries currently in the history) lies within
[min(history), max(history)] of the current history window. -/
theorem smoothed_within_window (s : BridgeState) (rssi : Int)
    (hlen : s.rssiHistory.length = RSSI_HISTORY_SIZE)
    (hcnt : s.rssiHistoryCount ≤ RSSI_HISTORY_SIZE) :
    ∃ mn mx : Int,
      (rssiWindow (updateRSSIHistory rssi s)).minimum = (mn : WithTop Int) ∧
      (rssiWindow (updateRSSIHistory rssi s)).maximum = (mx : WithBot Int) ∧
      mn ≤ (updateRSSIHistory rssi s).avgRSSI ∧
      (updateRSSIHistory rssi s).avgRSSI ≤ mx := by
  have hcount' : 1 ≤ (updateRSSIHistory rssi s).rssiHistoryCount ∧
      (updateRSSIHistory rssi s).rssiHistoryCount ≤ RSSI_HISTORY_SIZE := by
    have hrw : (updateRSSIHistory rssi s).rssiHistoryCount =
        if s.rssiHistoryCount < RSSI_HISTORY_SIZE then s.rssiHistoryCount + 1
        else s.rssiHistoryCount := rfl
    rw [hrw]
    simp only [RSSI_HISTORY_SIZE] at hcnt ⊢
    split_ifs <;> constructor <;> omega
  have hlen' : (updateRSSIHistory rssi s).rssiHistory.length = RSSI_HISTORY_SIZE := by
    simp only [updateRSSIHistory]
    simpa using hlen
  have hwlen : (rssiWindow (updateRSSIHistory rssi s)).length
      = (updateRSSIHistory rssi s).rssiHistoryCount := by
    unfold rssiWindow
    rw [List.length_take, hlen']
    have := hcount'.2
    omega
  have hpos : 0 < (rssiWindow (updateRSSIHistory rssi s)).length := by
    rw [hwlen]
    exact hcount'.1
  have hwne : rssiWindow (updateRSSIHistory rssi s) ≠ [] :=
    List.length_pos.mp hpos
  obtain ⟨mn, hmn⟩ : ∃ mn : Int,
      (rssiWindow (updateRSSIHistory rssi s)).minimum = (mn : WithTop Int) := by
    obtain ⟨x, hx⟩ := List.exists_mem_of_ne_nil _ hwne
    have h1 := List.minimum_le_of_mem' hx
    obtain ⟨mn, hmn⟩ :=
      WithTop.ne_top_iff_exists.mp (ne_top_of_le_ne_top WithTop.coe_ne_top h1)
    exact ⟨mn, hmn.symm⟩
  obtain ⟨mx, hmx⟩ : ∃ mx : Int,
      (rssiWindow (updateRSSIHistory rssi s)).maximum = (mx : WithBot Int) := by
    obtain ⟨x, hx⟩ := List.exists_mem_of_ne_nil _ hwne
    have h1 := List.le_maximum_of_mem' hx
    obtain ⟨mx, hmx⟩ :=
      WithBot.ne_bot_iff_exists.mp (ne_bot_of_le_ne_bot WithBot.coe_ne_bot h1)
    exact ⟨mx, hmx.symm⟩
  have hmn' := (List.minimum_eq_coe_iff.mp hmn).2
  have hmx' := (List.maximum_eq_coe_iff.mp hmx).2
  have hbounds := int_list_sum_bounds _ mn mx hmn' hmx'
  have havg : (updateRSSIHistory rssi s).avgRSSI
      = ((rssiWindow (updateRSSIHistory rssi s)).sum).tdiv
          (((rssiWindow (updateRSSIHistory rssi s)).length : Nat) : Int) := by
    rw [hwlen]
    simp [updateRSSIHistory, rssiWindow]
  have hnpos : (0 : Int) < ((rssiWindow (updateRSSIHistory rssi s)).length : Int) :=
    Int.natCast_pos.mpr hpos
  refine ⟨mn, mx, hmn, hmx, ?_, ?_⟩
  · rw [havg]
    exact le_tdiv_of_mul_le hnpos hbounds.1
  · rw [havg]
    exact tdiv_le_of_le_mul hnpos hbounds.2

/-- Witness for C7: one update with reading -60 on the boot state. -/
theorem smoothed_within_window_witness :
    ∃ mn mx : Int,
      (rssiWindow (updateRSSIHistory (-60) bootState)).minimum = (mn : WithTop Int) ∧
      (rssiWindow (updateRSSIHistory (-60) bootState)).maximum = (mx : WithBot Int) ∧
      mn ≤ (updateRSSIHistory (-60) bootState).avgRSSI ∧
      (updateRSSIHistory (-60) bootState).avgRSSI ≤ mx :=
  smoothed_within_window bootState (-60) (by decide) (by decide)

end HumansBridge
